import Mathlib

/-!
# PBL Guardian — verification of the evaluation engine

Shallow embedding of the pure analyzer cores of the PBL Guardian repository
(`scripts/contribution_checker.py`, `scripts/timing_checker.py`,
`scripts/plagiarism_checker.py`) together with proofs of the specified
properties.

Modelling conventions:
* Python floats are modelled as exact rationals (`ℚ`); Python `round(x, n)`
  (banker's rounding) is modelled by `pyRound`.
* Local date-times in the timing checker are modelled as minutes on an
  integer time line of the team's time zone; a calendar date is its day
  index, midnight of day `d` is minute `1440 * d`, and `datetime.date()`
  is floor division by 1440.  Weekday names are modelled by weekday
  indices (the lowercase-name membership test is a bijective renaming).
* The outcome of an external fallible parse (`datetime.fromisoformat`) is
  an `Option`: `none` models an unparseable string.  An exception that the
  Python code does not catch is modelled as `Except.error`.
-/

namespace PBLGuardian

/-! ## Rounding (Python `round`, half-to-even) -/

/-- Python's `round` to an integer: round half to even (banker's rounding). -/
def pyRoundInt (q : ℚ) : ℤ :=
  let f := ⌊q⌋
  let r := q - f
  if r < 1/2 then f
  else if 1/2 < r then f + 1
  else if f % 2 = 0 then f else f + 1

/-- Python's `round(q, ndigits)` on exact rationals. -/
def pyRound (q : ℚ) (ndigits : ℕ) : ℚ :=
  (pyRoundInt (q * (10 : ℚ) ^ ndigits) : ℚ) / (10 : ℚ) ^ ndigits

/-! ## Contribution checker: `_calculate_gini`
(`scripts/contribution_checker.py`, lines 70–99) -/

/-- The double sum `Σᵢ Σⱼ |xᵢ − xⱼ|` over a list of commit counts
(lines 90–93 of `contribution_checker.py`). -/
def giniNumerator (l : List ℕ) : ℤ :=
  (l.map fun xi : ℕ => (l.map fun xj : ℕ => |(xi : ℤ) - (xj : ℤ)|).sum).sum

/-- `_calculate_gini` (lines 70–99).  The `cumulative` accumulation of the
source (lines 83–87) is dead code — the variable is never read — and is
omitted.  Python's `sorted` is modelled by insertion sort: on natural
numbers under `≤` every sorting algorithm returns the same list, so the
choice of algorithm is immaterial.  Division is exact on `ℚ`. -/
def _calculate_gini (values : List ℕ) : ℚ :=
  if values = [] ∨ values.sum = 0 then 0
  else
    let n := values.length
    if n = 1 then 0
    else
      let sorted_values := values.insertionSort (· ≤ ·)
      let total := sorted_values.sum
      let numerator := giniNumerator sorted_values
      let denominator : ℤ := 2 * n * total
      if denominator = 0 then 0
      else (numerator : ℚ) / (denominator : ℚ)

/-! ### Gini helper lemmas -/

/-- The double sum depends only on the multiset of values. -/
lemma giniNumerator_perm {l₁ l₂ : List ℕ} (h : l₁.Perm l₂) :
    giniNumerator l₁ = giniNumerator l₂ := by
  unfold giniNumerator
  have hinner : (fun xi : ℕ => (l₁.map fun xj : ℕ => |(xi : ℤ) - (xj : ℤ)|).sum)
      = fun xi : ℕ => (l₂.map fun xj : ℕ => |(xi : ℤ) - (xj : ℤ)|).sum :=
    funext fun xi => (h.map _).sum_eq
  rw [hinner]
  exact ((h.map _).sum_eq)

/-- Summing an affine function over a list. -/
lemma sum_map_affine (l : List ℕ) (a b : ℤ) :
    (l.map fun x : ℕ => a * (x : ℤ) + b).sum = a * (l.sum : ℤ) + (l.length : ℤ) * b := by
  induction l with
  | nil => simp
  | cons x xs ih =>
    simp only [List.map_cons, List.sum_cons, ih, List.sum_cons, List.length_cons]
    push_cast
    ring

lemma giniNumerator_nonneg (l : List ℕ) : 0 ≤ giniNumerator l := by
  unfold giniNumerator
  apply List.sum_nonneg
  intro x hx
  obtain ⟨xi, _, rfl⟩ := List.mem_map.1 hx
  apply List.sum_nonneg
  intro y hy
  obtain ⟨xj, _, rfl⟩ := List.mem_map.1 hy
  exact abs_nonneg _

/-- `Σᵢ Σⱼ |xᵢ − xⱼ| ≤ 2·n·S` for non-negative values. -/
lemma giniNumerator_le (l : List ℕ) :
    giniNumerator l ≤ 2 * (l.length : ℤ) * (l.sum : ℤ) := by
  unfold giniNumerator
  have step1 : (l.map fun xi : ℕ => (l.map fun xj : ℕ => |(xi : ℤ) - (xj : ℤ)|).sum).sum
      ≤ (l.map fun xi : ℕ => (l.length : ℤ) * (xi : ℤ) + (l.sum : ℤ)).sum := by
    apply List.sum_le_sum
    intro xi _
    have hxi : (l.map fun xj : ℕ => |(xi : ℤ) - (xj : ℤ)|).sum
        ≤ (l.map fun xj : ℕ => 1 * (xj : ℤ) + (xi : ℤ)).sum := by
      apply List.sum_le_sum
      intro xj _
      exact abs_le.mpr ⟨by omega, by omega⟩
    calc (l.map fun xj : ℕ => |(xi : ℤ) - (xj : ℤ)|).sum
        ≤ (l.map fun xj : ℕ => 1 * (xj : ℤ) + (xi : ℤ)).sum := hxi
      _ = 1 * (l.sum : ℤ) + (l.length : ℤ) * (xi : ℤ) := sum_map_affine l 1 (xi : ℤ)
      _ = (l.length : ℤ) * (xi : ℤ) + (l.sum : ℤ) := by ring
  calc (l.map fun xi : ℕ => (l.map fun xj : ℕ => |(xi : ℤ) - (xj : ℤ)|).sum).sum
      ≤ (l.map fun xi : ℕ => (l.length : ℤ) * (xi : ℤ) + (l.sum : ℤ)).sum := step1
    _ = (l.length : ℤ) * (l.sum : ℤ) + (l.length : ℤ) * (l.sum : ℤ) :=
        sum_map_affine l (l.length : ℤ) (l.sum : ℤ)
    _ = 2 * (l.length : ℤ) * (l.sum : ℤ) := by ring

/-- In the main branch the code returns exactly the Gini formula over the
original (unsorted) list. -/
lemma gini_main_formula (l : List ℕ) (h1 : l ≠ []) (h2 : l.sum ≠ 0)
    (h3 : l.length ≠ 1) :
    _calculate_gini l = (giniNumerator l : ℚ) / (2 * (l.length : ℚ) * (l.sum : ℚ)) := by
  have hperm : (l.insertionSort (· ≤ ·)).Perm l := l.perm_insertionSort (· ≤ ·)
  have hsum : (l.insertionSort (· ≤ ·)).sum = l.sum := hperm.sum_eq
  have hnum : giniNumerator (l.insertionSort (· ≤ ·)) = giniNumerator l :=
    giniNumerator_perm hperm
  have hl : 0 < l.length := Nat.pos_of_ne_zero fun h => h1 (List.length_eq_zero.mp h)
  have hs : 0 < l.sum := Nat.pos_of_ne_zero h2
  have hden : (2 * (l.length : ℤ) * (l.sum : ℤ)) ≠ 0 := by positivity
  simp only [_calculate_gini]
  -- `split_ifs` discharges the `l.length = 1` test directly from `h3`
  split_ifs with hc hd
  · rcases hc with hc | hc
    · exact absurd hc h1
    · exact absurd hc h2
  · rw [hsum] at hd
    exact absurd hd hden
  · rw [hsum, hnum]
    rw [show ((2 * (l.length : ℤ) * (l.sum : ℤ) : ℤ) : ℚ)
          = 2 * (l.length : ℚ) * (l.sum : ℚ) by norm_cast]

lemma gini_edge_zero (l : List ℕ) :
    _calculate_gini [] = 0 ∧ (l.sum = 0 → _calculate_gini l = 0) ∧
      (l.length = 1 → _calculate_gini l = 0) := by
  refine ⟨by simp [_calculate_gini], fun h => by simp [_calculate_gini, h], fun h => ?_⟩
  unfold _calculate_gini
  by_cases h0 : l = [] ∨ l.sum = 0
  · rw [if_pos h0]
  · rw [if_neg h0, if_pos h]

lemma gini_nonneg (l : List ℕ) : 0 ≤ _calculate_gini l := by
  by_cases h1 : l = [] ∨ l.sum = 0
  · unfold _calculate_gini; rw [if_pos h1]
  · by_cases h3 : l.length = 1
    · rw [(gini_edge_zero l).2.2 h3]
    · push_neg at h1
      rw [gini_main_formula l h1.1 h1.2 h3]
      apply div_nonneg
      · exact_mod_cast giniNumerator_nonneg l
      · positivity

lemma gini_le_one (l : List ℕ) : _calculate_gini l ≤ 1 := by
  by_cases h1 : l = [] ∨ l.sum = 0
  · unfold _calculate_gini; rw [if_pos h1]; norm_num
  · by_cases h3 : l.length = 1
    · rw [(gini_edge_zero l).2.2 h3]; norm_num
    · push_neg at h1
      rw [gini_main_formula l h1.1 h1.2 h3]
      rw [div_le_one (by
        have hl : 0 < l.length := Nat.pos_of_ne_zero fun h => h1.1 (List.length_eq_zero.mp h)
        have hs : 0 < l.sum := Nat.pos_of_ne_zero h1.2
        positivity)]
      have h := giniNumerator_le l
      have h' : ((giniNumerator l : ℤ) : ℚ) ≤ ((2 * (l.length : ℤ) * (l.sum : ℤ) : ℤ) : ℚ) := by
        exact_mod_cast h
      rw [show ((2 * (l.length : ℤ) * (l.sum : ℤ) : ℤ) : ℚ)
            = 2 * (l.length : ℚ) * (l.sum : ℚ) by norm_cast] at h'
      exact h'

/-- The numerator for `k` zeros followed by one value `X` is `2·k·X`. -/
lemma giniNumerator_zeros_one (k X : ℕ) :
    giniNumerator (List.replicate k 0 ++ [X]) = 2 * (k : ℤ) * (X : ℤ) := by
  unfold giniNumerator
  simp only [List.map_append, List.map_replicate, List.map_cons, List.map_nil,
    List.sum_append, List.sum_replicate, List.sum_cons, List.sum_nil, smul_eq_mul,
    Nat.cast_zero, sub_zero, zero_sub, abs_neg, sub_self, abs_zero,
    Int.abs_natCast, mul_zero, zero_add, add_zero]
  ring

/-! ### Claims C1 and C9 -/

/-- **C1.** For every list of non-negative integers, `_calculate_gini`
returns exactly `(Σᵢ Σⱼ |xᵢ − xⱼ|) / (2·n·S)` in the general case, the
empty list, any all-zero list and any single-element list return exactly
`0`, and for every input the score lies in `[0, 1]`. -/
theorem C1_gini_formula_edge_cases_and_range (l : List ℕ) :
    (l ≠ [] → l.sum ≠ 0 → l.length ≠ 1 →
      _calculate_gini l = (giniNumerator l : ℚ) / (2 * (l.length : ℚ) * (l.sum : ℚ)))
    ∧ _calculate_gini [] = 0
    ∧ (l.sum = 0 → _calculate_gini l = 0)
    ∧ (l.length = 1 → _calculate_gini l = 0)
    ∧ 0 ≤ _calculate_gini l ∧ _calculate_gini l ≤ 1 :=
  ⟨fun h1 h2 h3 => gini_main_formula l h1 h2 h3, (gini_edge_zero l).1,
    (gini_edge_zero l).2.1, (gini_edge_zero l).2.2, gini_nonneg l, gini_le_one l⟩

attribute [local semireducible] Rat.add Rat.mul Rat.sub Rat.inv in
/-- Witness for C1 at the concrete input `[1, 9]`. -/
theorem C1_gini_formula_edge_cases_and_range_witness :
    _calculate_gini [1, 9] = (giniNumerator [1, 9] : ℚ) / (2 * 2 * 10) :=
  (C1_gini_formula_edge_cases_and_range [1, 9]).1 (by decide) (by decide) (by decide)

attribute [local semireducible] Rat.add Rat.mul Rat.sub Rat.inv in
/-- **C9 (as stated) is false**: the list `[0, 5]` consists of zeros plus
exactly one nonzero value, yet `_calculate_gini [0, 5] = 1/2 ≤ 0.6`. -/
theorem C9_counterexample :
    _calculate_gini [0, 5] = 1/2 ∧ ¬ (3/5 < _calculate_gini [0, 5]) := by
  constructor <;> decide

/-- **C9 (amended).** For every list consisting of at least two zeros plus
exactly one nonzero value `X` (so at least three elements), `_calculate_gini`
returns a score strictly greater than `0.6`; the score is `k/(k+1)` for `k`
zeros.  (As frozen, the claim fails for `[X]`, score `0`, and for `[0, X]`,
score `1/2`.) -/
theorem C9_amended_gini_single_nonzero (l : List ℕ) (k X : ℕ) (hk : 2 ≤ k)
    (hX : 0 < X) (hperm : l.Perm (List.replicate k 0 ++ [X])) :
    3/5 < _calculate_gini l := by
  have hlen : l.length = k + 1 := by
    simpa using hperm.length_eq
  have hsum : l.sum = X := by
    simpa using hperm.sum_eq
  have hformula := gini_main_formula l
    (by intro h; rw [h] at hlen; simp only [List.length_nil] at hlen; omega)
    (by omega) (by omega)
  rw [hformula, giniNumerator_perm hperm, giniNumerator_zeros_one, hlen, hsum]
  have hk' : (2 : ℚ) ≤ (k : ℚ) := by exact_mod_cast hk
  have hX' : (1 : ℚ) ≤ (X : ℚ) := by exact_mod_cast hX
  have hval : (2 * (k : ℚ) * (X : ℚ)) / (2 * ((k : ℚ) + 1) * (X : ℚ)) = (k : ℚ) / ((k : ℚ) + 1) := by
    rw [div_eq_div_iff (by positivity) (by positivity)]
    ring
  push_cast
  rw [hval, lt_div_iff₀ (by positivity)]
  linarith

attribute [local semireducible] Rat.add Rat.mul Rat.sub Rat.inv in
/-- Witness for C9 (amended) at the concrete input `[0, 0, 7]`. -/
theorem C9_amended_gini_single_nonzero_witness :
    3/5 < _calculate_gini [0, 0, 7] :=
  C9_amended_gini_single_nonzero [0, 0, 7] 2 7 (by decide) (by decide) (by decide)

/-! ## Timing checker (`scripts/timing_checker.py`)

Local times are integer minutes; a calendar date is its day index
(midnight of day `d` is minute `1440 * d`), so `datetime.date()` is
`Int.fdiv · 1440` and a `"%Y-%m-%d"` deadline parsed by `strptime`
(midnight, line 43) is `1440 * deadlineDay`.  Weekday names are weekday
indices `(day index) % 7`. -/

/-- One entry of `config["milestones"]`: `{"phase": ..., "deadline": "YYYY-MM-DD"}`,
the deadline as a day index. -/
structure Milestone where
  phase : String
  deadlineDay : ℤ
deriving DecidableEq

/-- The configuration fields read by `check_timing` (lines 22–25); the time
zone is implicit in the time line. -/
structure TimingConfig where
  grace_period_hours : ℤ
  class_days : List ℤ
  milestones : List Milestone

/-- The loop state of `check_timing` (lines 36–40): `milestone_deadline` is
computed by the source but never returned. -/
structure TimingState where
  current_phase : Option String
  is_late : Bool
  is_within_milestone : Bool
  days_until_deadline : Option ℤ
  milestone_deadline : Option ℤ

/-- One iteration of the milestone loop (lines 42–65).  `prev` is the
previous milestone's deadline day (`phase_start`); `none` stands for
`datetime.min` (phase 0, line 49), which every commit time exceeds. -/
def timingStep (grace t : ℤ) (prev : Option ℤ) (m : Milestone) (st : TimingState) :
    TimingState :=
  let deadline := 1440 * m.deadlineDay
  let deadline_with_grace := deadline + 60 * grace
  let phase_start_ok : Bool := match prev with
    | none => true
    | some p => decide (1440 * p < t)
  if t ≤ deadline_with_grace ∧ (st.current_phase = none ∨ phase_start_ok = true) then
    { current_phase := some m.phase
      milestone_deadline := some deadline
      days_until_deadline := some (m.deadlineDay - t.fdiv 1440)
      is_within_milestone := true
      is_late := if deadline < t then
          (if t ≤ deadline_with_grace then false else true)
        else st.is_late }
  else st

/-- The milestone loop of `check_timing`, threading the previous deadline. -/
def timingLoop (grace t : ℤ) : List Milestone → Option ℤ → TimingState → TimingState
  | [], _, st => st
  | m :: rest, prev, st =>
      timingLoop grace t rest (some m.deadlineDay) (timingStep grace t prev m st)

/-- The fields of the verdict dict returned by `check_timing` (lines 96–108)
that the claims refer to; the status strings are derived from these. -/
structure TimingResult where
  passed : Bool
  is_class_day : Bool
  is_within_milestone : Bool
  is_late : Bool
  current_phase : Option String
  days_until_deadline : Option ℤ

/-- `check_timing` after the timestamp has been parsed and converted to the
team's local time `t` (lines 30–108). -/
def check_timing_core (cfg : TimingConfig) (t : ℤ) : TimingResult :=
  let grace := cfg.grace_period_hours
  let commit_weekday := (t.fdiv 1440) % 7
  let is_class_day := decide (commit_weekday ∈ cfg.class_days)
  let st := timingLoop grace t cfg.milestones none
    { current_phase := none, is_late := false, is_within_milestone := false,
      days_until_deadline := none, milestone_deadline := none }
  -- lines 67–75: if no phase matched, the commit is after all deadlines;
  -- `milestones[-1]` is `getLastD` (the default is unreachable in this branch)
  let last := cfg.milestones.getLastD { phase := "", deadlineDay := 0 }
  let st2 : TimingState :=
    if st.current_phase = none ∧ cfg.milestones ≠ [] then
      { current_phase := some last.phase
        milestone_deadline := some (1440 * last.deadlineDay)
        days_until_deadline := some (last.deadlineDay - t.fdiv 1440)
        is_late := true
        is_within_milestone := false }
    else st
  { passed := !st2.is_late
    is_class_day := is_class_day
    is_within_milestone := st2.is_within_milestone
    is_late := st2.is_late
    current_phase := st2.current_phase
    days_until_deadline := st2.days_until_deadline }

/-- `check_timing` with the `datetime.fromisoformat` boundary explicit:
`none` models an unparseable `commit_timestamp_iso`.  Line 28 of
`timing_checker.py` parses outside any try/except, so a parse failure
propagates as an uncaught `ValueError`, modelled as `Except.error`. -/
def check_timing (cfg : TimingConfig) (parsed_commit_local : Option ℤ) :
    Except String TimingResult :=
  match parsed_commit_local with
  | none => .error "ValueError: invalid isoformat string"
  | some t => .ok (check_timing_core cfg t)

/-! ### Timing helper lemmas -/

/-- Loop invariant: the milestone loop never marks a commit late, and a
resolved phase always carries a milestone whose deadline-plus-grace the
commit respects. -/
lemma timingLoop_inv (grace t : ℤ) (L : List Milestone) :
    ∀ (ms : List Milestone) (prev : Option ℤ) (st : TimingState),
    (∀ m ∈ ms, m ∈ L) →
    st.is_late = false →
    (st.is_within_milestone = true →
      ∃ m ∈ L, st.current_phase = some m.phase ∧
        t ≤ 1440 * m.deadlineDay + 60 * grace) →
    (timingLoop grace t ms prev st).is_late = false ∧
    ((timingLoop grace t ms prev st).is_within_milestone = true →
      ∃ m ∈ L, (timingLoop grace t ms prev st).current_phase = some m.phase ∧
        t ≤ 1440 * m.deadlineDay + 60 * grace) := by
  intro ms
  induction ms with
  | nil => intro prev st _ hlate hwithin; exact ⟨hlate, hwithin⟩
  | cons m rest ih =>
    intro prev st hsub hlate hwithin
    simp only [timingLoop]
    apply ih
    · intro x hx; exact hsub x (List.mem_cons_of_mem m hx)
    · simp only [timingStep]
      split_ifs with hcond h1 h2 <;>
        first
          | rfl
          | exact absurd hcond.1 h2
          | exact hlate
    · simp only [timingStep]
      split_ifs with hcond h1 h2 <;>
        first
          | exact fun _ => ⟨m, hsub m (by simp), rfl, hcond.1⟩
          | exact hwithin

/-- When no milestone window accepts the commit, the loop leaves the state
unchanged. -/
lemma timingLoop_no_match (grace t : ℤ) :
    ∀ (ms : List Milestone) (prev : Option ℤ) (st : TimingState),
    (∀ m ∈ ms, ¬ t ≤ 1440 * m.deadlineDay + 60 * grace) →
    timingLoop grace t ms prev st = st := by
  intro ms
  induction ms with
  | nil => intro prev st _; rfl
  | cons m rest ih =>
    intro prev st hno
    simp only [timingLoop]
    rw [show timingStep grace t prev m st = st from by
      simp only [timingStep]
      rw [if_neg]
      intro hcond
      exact hno m (by simp) hcond.1]
    exact ih _ _ fun x hx => hno x (List.mem_cons_of_mem m hx)

/-- In a list whose deadline days are strictly increasing, every member's
deadline is at most the last one's. -/
lemma deadline_le_getLast (ms : List Milestone) (last : Milestone)
    (hs : ms.Pairwise fun a b => a.deadlineDay < b.deadlineDay)
    (hl : ms.getLast? = some last) :
    ∀ m ∈ ms, m.deadlineDay ≤ last.deadlineDay := by
  induction ms with
  | nil => simp at hl
  | cons m rest ih =>
    intro x hx
    rcases List.mem_cons.mp hx with rfl | hx
    · rcases rest with - | ⟨m2, rest2⟩
      · simp only [List.getLast?_singleton, Option.some.injEq] at hl
        rw [hl]
      · rw [List.getLast?_cons_cons] at hl
        have hmem : last ∈ m2 :: rest2 := List.mem_of_getLast?_eq_some hl
        have := (List.pairwise_cons.mp hs).1 last hmem
        omega
    · rcases rest with - | ⟨m2, rest2⟩
      · simp at hx
      · rw [List.getLast?_cons_cons] at hl
        exact ih (List.pairwise_cons.mp hs).2 hl x hx

/-- Core fact behind C2 and C10: a resolved phase is never late, and the
resolved phase's deadline-plus-grace bounds the commit time. -/
lemma check_timing_core_within (cfg : TimingConfig) (t : ℤ)
    (h : (check_timing_core cfg t).is_within_milestone = true) :
    (check_timing_core cfg t).is_late = false ∧
    ∃ m ∈ cfg.milestones, (check_timing_core cfg t).current_phase = some m.phase ∧
      t ≤ 1440 * m.deadlineDay + 60 * cfg.grace_period_hours := by
  have hinv := timingLoop_inv cfg.grace_period_hours t cfg.milestones cfg.milestones none
      { current_phase := none, is_late := false, is_within_milestone := false,
        days_until_deadline := none, milestone_deadline := none }
      (fun m hm => hm) rfl (fun hw => by simp at hw)
  simp only [check_timing_core] at h ⊢
  split_ifs at h ⊢ with hb
  exact ⟨hinv.1, hinv.2 h⟩

/-- The example configuration of the spec and of `timing_checker.py`'s self
test: grace 2h, milestones Phase 1 → 2026-03-01, Phase 2 → 2026-03-15.  Day
indices count from 2026-01-01 (= day 0, a Thursday), so the deadlines are
days 59 and 73; class days Monday and Saturday are weekday indices 4 and 2. -/
def sampleConfig : TimingConfig :=
  { grace_period_hours := 2
    class_days := [4, 2]
    milestones := [{ phase := "Phase 1 - Setup", deadlineDay := 59 },
                   { phase := "Phase 2 - Core", deadlineDay := 73 }] }

/-- **C2.** For every configuration and commit that resolves to some phase,
`check_timing` reports `is_late = false` — equivalently, the local commit
time is at or before the resolved phase's deadline plus the grace period —
and `passed = true`. -/
theorem C2_resolved_phase_on_time (cfg : TimingConfig) (t : ℤ)
    (h : (check_timing_core cfg t).is_within_milestone = true) :
    (check_timing_core cfg t).is_late = false ∧
    (check_timing_core cfg t).passed = true ∧
    ∃ m ∈ cfg.milestones, (check_timing_core cfg t).current_phase = some m.phase ∧
      t ≤ 1440 * m.deadlineDay + 60 * cfg.grace_period_hours := by
  obtain ⟨h1, h2⟩ := check_timing_core_within cfg t h
  refine ⟨h1, ?_, h2⟩
  have hp : (check_timing_core cfg t).passed = !(check_timing_core cfg t).is_late := rfl
  rw [hp, h1]
  rfl

/-- Witness for C2: commit 2026-03-01T01:30:00+05:30 (minute 85050), 1.5h
after the midnight deadline, within the 2h grace period. -/
theorem C2_resolved_phase_on_time_witness :
    (check_timing_core sampleConfig 85050).is_late = false ∧
    (check_timing_core sampleConfig 85050).passed = true :=
  let h := C2_resolved_phase_on_time sampleConfig 85050 (by decide)
  ⟨h.1, h.2.1⟩

/-- **C3.** With a non-empty, strictly increasing milestone list and a commit
strictly after the last deadline plus grace (hence matching no phase
window), `check_timing` resolves `current_phase` to the last milestone's
phase label and returns `is_late = true`, `passed = false`. -/
theorem C3_past_all_deadlines (cfg : TimingConfig) (t : ℤ) (last : Milestone)
    (hsorted : cfg.milestones.Pairwise fun a b => a.deadlineDay < b.deadlineDay)
    (hlast : cfg.milestones.getLast? = some last)
    (hafter : 1440 * last.deadlineDay + 60 * cfg.grace_period_hours < t) :
    (check_timing_core cfg t).current_phase = some last.phase ∧
    (check_timing_core cfg t).is_late = true ∧
    (check_timing_core cfg t).passed = false := by
  have hne : cfg.milestones ≠ [] := by
    intro he
    rw [he] at hlast
    simp at hlast
  have hno : ∀ m ∈ cfg.milestones,
      ¬ t ≤ 1440 * m.deadlineDay + 60 * cfg.grace_period_hours := by
    intro m hm hle
    have := deadline_le_getLast cfg.milestones last hsorted hlast m hm
    omega
  have hD : cfg.milestones.getLastD { phase := "", deadlineDay := 0 } = last := by
    rw [List.getLastD_eq_getLast?, hlast]
    rfl
  simp only [check_timing_core, timingLoop_no_match cfg.grace_period_hours t
    cfg.milestones none _ hno]
  split_ifs with hb
  · rw [hD]
    exact ⟨rfl, rfl, rfl⟩
  · exact absurd ⟨by simp, hne⟩ hb

/-- Witness for C3: commit 2026-04-01T10:30:00+05:30 (minute 130230), past
both deadlines of the sample configuration. -/
theorem C3_past_all_deadlines_witness :
    (check_timing_core sampleConfig 130230).current_phase = some "Phase 2 - Core" ∧
    (check_timing_core sampleConfig 130230).is_late = true ∧
    (check_timing_core sampleConfig 130230).passed = false :=
  C3_past_all_deadlines sampleConfig 130230 { phase := "Phase 2 - Core", deadlineDay := 73 }
    (by decide) (by decide) (by decide)

/-- **C6.** With an empty milestone list, `check_timing` returns normally
(no exception: the parsed timestamp yields `.ok`) with `passed = true`,
`is_late = false` and `current_phase = none`, whatever the timestamp. -/
theorem C6_empty_milestones (cfg : TimingConfig) (t : ℤ)
    (h : cfg.milestones = []) :
    check_timing cfg (some t) = .ok (check_timing_core cfg t) ∧
    (check_timing_core cfg t).passed = true ∧
    (check_timing_core cfg t).is_late = false ∧
    (check_timing_core cfg t).current_phase = none := by
  refine ⟨rfl, ?_⟩
  simp [check_timing_core, h, timingLoop]

/-- The empty-milestone configuration of the test suite (UTC, class day
Monday). -/
def emptyMilestoneConfig : TimingConfig :=
  { grace_period_hours := 2, class_days := [4], milestones := [] }

/-- Witness for C6: the empty-milestone configuration of the test suite at
commit 2026-03-01T10:00:00Z. -/
theorem C6_empty_milestones_witness :
    (check_timing_core emptyMilestoneConfig 85560).passed = true ∧
    (check_timing_core emptyMilestoneConfig 85560).current_phase = none :=
  let h := C6_empty_milestones emptyMilestoneConfig 85560 rfl
  ⟨h.2.1, h.2.2.2⟩

/-- **C10.** Invariant: `is_within_milestone = true` implies
`is_late = false` (hence `passed = true`); the late-marking branch inside a
resolved phase is unreachable, so `is_late = true` occurs only in the
past-all-deadlines terminal state. -/
theorem C10_within_implies_not_late (cfg : TimingConfig) (t : ℤ)
    (h : (check_timing_core cfg t).is_within_milestone = true) :
    (check_timing_core cfg t).is_late = false ∧
    (check_timing_core cfg t).passed = true := by
  obtain ⟨h1, -⟩ := check_timing_core_within cfg t h
  refine ⟨h1, ?_⟩
  have hp : (check_timing_core cfg t).passed = !(check_timing_core cfg t).is_late := rfl
  rw [hp, h1]
  rfl

/-- Witness for C10: the on-time commit 2026-02-28T10:30:00+05:30
(minute 84270) resolving to Phase 1. -/
theorem C10_within_implies_not_late_witness :
    (check_timing_core sampleConfig 84270).is_late = false ∧
    (check_timing_core sampleConfig 84270).passed = true :=
  C10_within_implies_not_late sampleConfig 84270 (by decide)


/-! ## AI-fingerprint scorer: `layer4_ai_detection`
(`scripts/plagiarism_checker.py`, lines 261–439) -/

/-- The `CodeMetricBundle`: aggregate counts collected by the file scan of
lines 278–356.  Variable names are modelled by their lengths; the only use
of the name text, `snake_case_ratio` (line 388), is computed and never
read.  The explanatory flag strings (audit output only) are not modelled. -/
structure CodeMetrics where
  total_code_lines : ℕ
  total_comment_lines : ℕ
  total_functions : ℕ
  functions_with_docstrings : ℕ
  variable_name_lengths : List ℕ
  try_except_count : ℕ
  total_blocks : ℕ

/-- Heuristic 1 (lines 360–369): comment-to-code ratio sub-score. -/
def commentScore (m : CodeMetrics) : ℚ :=
  let comment_ratio : ℚ :=
    (m.total_comment_lines : ℚ) / ((m.total_code_lines : ℚ) + (m.total_comment_lines : ℚ))
  if 2/5 < comment_ratio then 4/5
  else if 3/10 < comment_ratio then 2/5
  else 1/10

/-- Heuristic 2 (lines 373–381): docstring-coverage sub-score. -/
def docstringScore (m : CodeMetrics) : ℚ :=
  let docstring_ratio : ℚ := (m.functions_with_docstrings : ℚ) / (m.total_functions : ℚ)
  if 9/10 < docstring_ratio then 7/10
  else if 7/10 < docstring_ratio then 3/10
  else 1/10

/-- Heuristic 3 (lines 385–396): naming-uniformity sub-score. -/
def namingScore (m : CodeMetrics) : ℚ :=
  let n : ℚ := (m.variable_name_lengths.length : ℚ)
  let avg_name_length : ℚ := ((m.variable_name_lengths.map fun x : ℕ => (x : ℚ)).sum) / n
  let long_name_ratio : ℚ := ((m.variable_name_lengths.filter fun x => 15 < x).length : ℚ) / n
  if 12 < avg_name_length ∧ 3/10 < long_name_ratio then 3/5
  else 1/10

/-- Heuristic 4 (lines 400–406): error-handling-density sub-score. -/
def errorScore (m : CodeMetrics) : ℚ :=
  let error_ratio : ℚ := (m.try_except_count : ℚ) / (m.total_blocks : ℚ)
  if 1/2 < error_ratio then 3/5
  else 1/10

/-- The `scores` list accumulated by lines 358–406: each sub-score is
appended only when its minimum-sample precondition holds. -/
def layer4Scores (m : CodeMetrics) : List ℚ :=
  (if 0 < m.total_code_lines then [commentScore m] else []) ++
  (if 2 < m.total_functions then [docstringScore m] else []) ++
  (if m.variable_name_lengths ≠ [] then [namingScore m] else []) ++
  (if 3 < m.total_blocks then [errorScore m] else [])

/-- The fields of the layer-4 verdict the claims refer to. -/
structure AIResult where
  ai_score : ℚ
  passed : Bool
  status_label : String

/-- `layer4_ai_detection` from the metric bundle onward (lines 358–439):
mean of the accumulated sub-scores rounded to 2 decimals (0 when no
heuristic applied), then the threshold classification of lines 412–423. -/
def layer4_ai_detection (m : CodeMetrics) : AIResult :=
  let scores := layer4Scores m
  let ai_score : ℚ :=
    if scores = [] then 0 else pyRound (scores.sum / (scores.length : ℚ)) 2
  if 3/5 ≤ ai_score then
    { ai_score := ai_score, passed := false, status_label := "Likely AI" }
  else if 2/5 ≤ ai_score then
    { ai_score := ai_score, passed := true, status_label := "Suspicious" }
  else
    { ai_score := ai_score, passed := true, status_label := "Human" }

/-- Spec-side reading of the score aggregation: the four named rules, each
contributing exactly when its precondition holds. -/
def applicableSubScores (m : CodeMetrics) : List ℚ :=
  ([(decide (0 < m.total_code_lines), commentScore m),
    (decide (2 < m.total_functions), docstringScore m),
    (decide (m.variable_name_lengths ≠ []), namingScore m),
    (decide (3 < m.total_blocks), errorScore m)]).filterMap
    fun ps => if ps.1 then some ps.2 else none

/-! ## Commit-behavior analyzer: `layer5_commit_patterns`
(`scripts/plagiarism_checker.py`, lines 446–594) -/

/-- One parsed commit of the `git log --numstat` output (lines 479–514).
`date` is the outcome of `datetime.fromisoformat` on the `%aI` field in
seconds: `none` models an unparseable date, caught and skipped by lines
538–542. -/
structure CommitEvent where
  sha : String
  author : String
  date : Option ℤ
  additions : ℕ
  deletions : ℕ
deriving DecidableEq

/-- A triggered pattern rule with its payload.  The source encodes severity
by the leading emoji of the flag string ("🚨" critical, "⚠️" warning);
`codeDump` flags are exactly the "🚨" ones. -/
inductive BehaviorFlag
  | codeDump (author : String) (additions : ℕ) (sha : String)
  | rush (lateRatio : ℚ)
  | lowFrequency (commits : ℕ) (avgAdditions : ℚ)
deriving DecidableEq

/-- Severity: the `"🚨" in f` test of line 568. -/
def BehaviorFlag.isCritical : BehaviorFlag → Bool
  | .codeDump .. => true
  | _ => false

/-- Lines 536–542: the timestamped additions list; malformed dates are
skipped by the `except (ValueError, TypeError): pass` handler. -/
def commit_dates (commits : List CommitEvent) : List (ℤ × ℕ) :=
  commits.filterMap fun c => c.date.map fun dt => (dt, c.additions)

/-- CHECK 2 of `layer5_commit_patterns` (lines 535–557): last-minute rush.
Python's stable `sort(key=...)` is insertion sort on the date component. -/
def rushCheck (commits : List CommitEvent) : List BehaviorFlag :=
  let cd := commit_dates commits
  if 3 < cd.length then
    let sorted := cd.insertionSort fun a b => a.1 ≤ b.1
    let first := sorted.headD (0, 0)
    let last := sorted.getLastD (0, 0)
    let total_span : ℤ := last.1 - first.1
    if 0 < total_span then
      let cutoff_time : ℚ := (first.1 : ℚ) + (total_span : ℚ) * (3/4)
      let total_additions := (sorted.map fun p => p.2).sum
      let late_additions := ((sorted.filter fun p => cutoff_time ≤ (p.1 : ℚ)).map fun p => p.2).sum
      if 0 < total_additions then
        let late_ratio : ℚ := (late_additions : ℚ) / (total_additions : ℚ)
        if 3/5 < late_ratio then [.rush late_ratio] else []
      else []
    else []
  else []

/-- The fields of the layer-5 verdict the claims refer to. -/
structure L5Result where
  passed : Bool
  flags : List BehaviorFlag
  status_label : String

/-- Lines 567–582: the overall verdict from the accumulated flags — fails
exactly when a critical ("🚨") flag exists; warnings alone pass. -/
def layer5Verdict (flags : List BehaviorFlag) : L5Result :=
  let critical_flags := flags.filter fun f => f.isCritical
  let warning_flags := flags.filter fun f => !f.isCritical
  if critical_flags ≠ [] then
    { passed := false, flags := flags, status_label := "Suspicious" }
  else if warning_flags ≠ [] then
    { passed := true, flags := flags, status_label := "Needs Review" }
  else
    { passed := true, flags := flags, status_label := "Healthy" }

/-- `layer5_commit_patterns` from the parsed commit list onward
(lines 516–594): code-dump critical flags, rush and low-frequency
warnings, then the verdict step. -/
def layer5_commit_patterns (max_dump_lines : ℕ) (commits : List CommitEvent) : L5Result :=
  if commits = [] then
    { passed := true, flags := [], status_label := "No commits" }
  else
    let dump_flags := commits.filterMap fun c =>
      if max_dump_lines < c.additions then some (BehaviorFlag.codeDump c.author c.additions c.sha)
      else none
    let rush_flags := rushCheck commits
    let freq_flags :=
      if 0 < commits.length then
        let avg_additions : ℚ := ((commits.map fun c => c.additions).sum : ℚ) / (commits.length : ℚ)
        if 150 < avg_additions ∧ commits.length < 5 then
          [BehaviorFlag.lowFrequency commits.length avg_additions]
        else []
      else []
    layer5Verdict (dump_flags ++ rush_flags ++ freq_flags)


/-! ### Claims C4, C5, C7 -/

/-- The accumulated `scores` list is exactly the sub-scores whose
precondition held. -/
lemma layer4Scores_eq (m : CodeMetrics) : layer4Scores m = applicableSubScores m := by
  by_cases h1 : 0 < m.total_code_lines <;>
    by_cases h2 : 2 < m.total_functions <;>
      by_cases h3 : m.variable_name_lengths = [] <;>
        by_cases h4 : 3 < m.total_blocks <;>
          simp [layer4Scores, applicableSubScores, h1, h2, h3, h4]

/-- **C4.** `ai_score` is the 2-decimal-rounded unweighted mean of exactly
the sub-heuristic scores whose minimum-sample precondition held (0 when
none held); `passed = false` iff `ai_score ≥ 0.6` ("Likely AI");
`0.4 ≤ ai_score < 0.6` is "Suspicious" and passes; `ai_score < 0.4` is
"Human" and passes. -/
theorem C4_ai_score_mean_and_thresholds (m : CodeMetrics) :
    ((layer4_ai_detection m).ai_score =
      if applicableSubScores m = [] then 0
      else pyRound ((applicableSubScores m).sum / ((applicableSubScores m).length : ℚ)) 2)
    ∧ ((layer4_ai_detection m).passed = false ↔ 3/5 ≤ (layer4_ai_detection m).ai_score)
    ∧ (3/5 ≤ (layer4_ai_detection m).ai_score →
        (layer4_ai_detection m).status_label = "Likely AI")
    ∧ (2/5 ≤ (layer4_ai_detection m).ai_score → (layer4_ai_detection m).ai_score < 3/5 →
        (layer4_ai_detection m).status_label = "Suspicious" ∧
          (layer4_ai_detection m).passed = true)
    ∧ ((layer4_ai_detection m).ai_score < 2/5 →
        (layer4_ai_detection m).status_label = "Human" ∧
          (layer4_ai_detection m).passed = true) := by
  have hsc := layer4Scores_eq m
  simp only [layer4_ai_detection, hsc]
  generalize (if applicableSubScores m = [] then (0 : ℚ)
      else pyRound ((applicableSubScores m).sum / ((applicableSubScores m).length : ℚ)) 2) = v
  split_ifs with hA hB
  · exact ⟨rfl, by simp [hA], fun _ => rfl,
      fun h2 h3 => absurd hA (not_le.mpr h3),
      fun h => absurd hA (not_le.mpr (lt_trans h (by norm_num)))⟩
  · exact ⟨rfl, by simp [hA], fun h => absurd h hA,
      fun _ _ => ⟨rfl, rfl⟩,
      fun h => absurd h (not_lt.mpr hB)⟩
  · exact ⟨rfl, by simp [hA], fun h => absurd h hA,
      fun h2 _ => absurd h2 hB,
      fun _ => ⟨rfl, rfl⟩⟩

/-- A metric bundle on which all four heuristics fire: 50% comments,
full docstring coverage, 20-character variable names, 60% try/except
density.  The mean score is (0.8+0.7+0.6+0.6)/4 = 0.675, rounded to 0.68. -/
def aiMetricsExample : CodeMetrics :=
  { total_code_lines := 50, total_comment_lines := 50, total_functions := 10,
    functions_with_docstrings := 10, variable_name_lengths := [20, 20, 20, 20],
    try_except_count := 6, total_blocks := 10 }

attribute [local semireducible] Rat.add Rat.mul Rat.sub Rat.inv in
/-- Witness for C4 at `aiMetricsExample`: score 0.68 classifies as
"Likely AI". -/
theorem C4_ai_score_mean_and_thresholds_witness :
    (layer4_ai_detection aiMetricsExample).status_label = "Likely AI" :=
  (C4_ai_score_mean_and_thresholds aiMetricsExample).2.2.1 (by decide)

/-- The verdict step returns the flag list unchanged. -/
lemma layer5Verdict_flags (flags : List BehaviorFlag) :
    (layer5Verdict flags).flags = flags := by
  simp only [layer5Verdict]
  split_ifs <;> rfl

/-- Any commit above the dump ceiling yields its critical flag in the
returned flag list. -/
lemma dump_flag_mem (d : ℕ) (commits : List CommitEvent) (c : CommitEvent)
    (hc : c ∈ commits) (hbig : d < c.additions) :
    BehaviorFlag.codeDump c.author c.additions c.sha ∈
      (layer5_commit_patterns d commits).flags := by
  have hne : commits ≠ [] := by rintro rfl; simp at hc
  have hmem : BehaviorFlag.codeDump c.author c.additions c.sha ∈
      commits.filterMap (fun c' =>
        if d < c'.additions then some (BehaviorFlag.codeDump c'.author c'.additions c'.sha)
        else none) :=
    List.mem_filterMap.mpr ⟨c, hc, by rw [if_pos hbig]⟩
  simp only [layer5_commit_patterns]
  rw [if_neg hne, layer5Verdict_flags]
  exact List.mem_append_left _ (List.mem_append_left _ hmem)

/-- The verdict step fails exactly when a critical flag exists. -/
lemma layer5Verdict_passed_iff (flags : List BehaviorFlag) :
    (layer5Verdict flags).passed = false ↔ ∃ f ∈ flags, f.isCritical = true := by
  simp only [layer5Verdict]
  split_ifs with hcrit hwarn
  · obtain ⟨f, hf⟩ := List.exists_mem_of_ne_nil _ hcrit
    obtain ⟨h1, h2⟩ := List.mem_filter.mp hf
    exact ⟨fun _ => ⟨f, h1, h2⟩, fun _ => rfl⟩
  · rw [not_not] at hcrit
    refine ⟨fun h => absurd h (by simp), ?_⟩
    rintro ⟨f, hf, hcf⟩
    exact absurd (hcrit ▸ List.mem_filter.mpr ⟨hf, hcf⟩) (List.not_mem_nil f)
  · rw [not_not] at hcrit
    refine ⟨fun h => absurd h (by simp), ?_⟩
    rintro ⟨f, hf, hcf⟩
    exact absurd (hcrit ▸ List.mem_filter.mpr ⟨hf, hcf⟩) (List.not_mem_nil f)

/-- The layer-5 verdict fails exactly when a critical flag exists. -/
lemma layer5_passed_iff (d : ℕ) (commits : List CommitEvent) :
    (layer5_commit_patterns d commits).passed = false ↔
    ∃ f ∈ (layer5_commit_patterns d commits).flags, f.isCritical = true := by
  by_cases he : commits = []
  · subst he
    simp [layer5_commit_patterns]
  · simp only [layer5_commit_patterns, if_neg he]
    rw [layer5Verdict_flags]
    exact layer5Verdict_passed_iff _

/-- **C5.** Every commit above the (default 200) added-line ceiling yields a
critical code-dump flag; the verdict fails exactly when a critical flag
exists; any sequence containing a 500-line commit fails under the default
ceiling; warnings alone pass. -/
theorem C5_code_dump_critical (max_dump_lines : ℕ) (commits : List CommitEvent) :
    (∀ c ∈ commits, max_dump_lines < c.additions →
      BehaviorFlag.codeDump c.author c.additions c.sha ∈
        (layer5_commit_patterns max_dump_lines commits).flags)
    ∧ ((layer5_commit_patterns max_dump_lines commits).passed = false ↔
        ∃ f ∈ (layer5_commit_patterns max_dump_lines commits).flags, f.isCritical = true)
    ∧ ((∃ c ∈ commits, c.additions = 500) →
        (layer5_commit_patterns 200 commits).passed = false)
    ∧ ((∀ f ∈ (layer5_commit_patterns max_dump_lines commits).flags, f.isCritical = false) →
        (layer5_commit_patterns max_dump_lines commits).passed = true) := by
  refine ⟨fun c hc hbig => dump_flag_mem _ _ _ hc hbig, layer5_passed_iff _ _, ?_, ?_⟩
  · rintro ⟨c, hc, h500⟩
    rw [layer5_passed_iff]
    refine ⟨BehaviorFlag.codeDump c.author c.additions c.sha, ?_, rfl⟩
    exact dump_flag_mem 200 commits c hc (by omega)
  · intro hnone
    by_contra hnt
    have hfalse : (layer5_commit_patterns max_dump_lines commits).passed = false := by
      cases hpb : (layer5_commit_patterns max_dump_lines commits).passed
      · rfl
      · exact absurd hpb hnt
    obtain ⟨f, hf, hcf⟩ := (layer5_passed_iff _ _).mp hfalse
    rw [hnone f hf] at hcf
    exact absurd hcf (by simp)

/-- Witness for C5: a single commit adding 500 lines fails the analyzer. -/
theorem C5_code_dump_critical_witness :
    (layer5_commit_patterns 200
      [{ sha := "abc1234", author := "alice", date := some 0,
         additions := 500, deletions := 0 }]).passed = false :=
  (C5_code_dump_critical 200
    [{ sha := "abc1234", author := "alice", date := some 0,
       additions := 500, deletions := 0 }]).2.2.1
    ⟨{ sha := "abc1234", author := "alice", date := some 0,
       additions := 500, deletions := 0 }, by simp, rfl⟩

/-- **C7 (as stated) is false**: an unparseable commit timestamp handed to
`check_timing` is not skipped — the uncaught `ValueError` of line 28 of
`timing_checker.py` propagates past the analyzer's boundary instead of a
verdict being returned. -/
theorem C7_counterexample :
    check_timing sampleConfig none = Except.error "ValueError: invalid isoformat string" := rfl

/-- **C7 (amended).** The commit-behavior analyzer skips malformed records
and keeps processing the valid ones: an unparseable commit date is dropped
from the rush timeline, while the same commit still feeds the code-dump
check, and a verdict is returned.  `check_timing`, however, raises on an
unparseable commit timestamp: the parse error propagates to the caller
rather than a verdict being returned. -/
theorem C7_amended_malformed_handling :
    (∀ cfg : TimingConfig,
      check_timing cfg none = Except.error "ValueError: invalid isoformat string")
    ∧ (∀ commits : List CommitEvent,
        commit_dates commits = commit_dates (commits.filter fun c => c.date.isSome))
    ∧ (∀ (d : ℕ) (commits : List CommitEvent) (c : CommitEvent), c ∈ commits →
        c.date = none → d < c.additions →
        BehaviorFlag.codeDump c.author c.additions c.sha ∈
          (layer5_commit_patterns d commits).flags) := by
  refine ⟨fun _ => rfl, ?_, fun d commits c hc _ hbig => dump_flag_mem d commits c hc hbig⟩
  intro commits
  induction commits with
  | nil => rfl
  | cons c rest ih =>
    cases hd : c.date <;> simp [commit_dates, hd] <;>
      simpa [commit_dates] using ih

/-- Witness for C7 (amended): a parse failure makes `check_timing` error,
while a 500-line commit with an unparseable date still produces its
critical flag in the commit-behavior analyzer. -/
theorem C7_amended_malformed_handling_witness :
    check_timing sampleConfig none = Except.error "ValueError: invalid isoformat string" ∧
    BehaviorFlag.codeDump "bob" 500 "deadbee" ∈
      (layer5_commit_patterns 200
        [{ sha := "deadbee", author := "bob", date := none,
           additions := 500, deletions := 0 }]).flags :=
  ⟨C7_amended_malformed_handling.1 sampleConfig,
   C7_amended_malformed_handling.2.2 200
     [{ sha := "deadbee", author := "bob", date := none,
        additions := 500, deletions := 0 }]
     { sha := "deadbee", author := "bob", date := none,
       additions := 500, deletions := 0 }
     (by simp) rfl (by decide)⟩


/-! ## Contribution checker: `check_contributions`
(`scripts/contribution_checker.py`, lines 102–191) -/

/-- One contributor record as assembled by the git parsing
(lines 113–114). -/
structure MemberStats where
  name : String
  commits : ℕ
  additions : ℕ
deriving DecidableEq

/-- The warnings of lines 121, 145–160, by kind with their payloads (the
source renders them as strings). -/
inductive ContributionWarning
  | noHistory
  | lowShare (name : String) (pct : ℚ)
  | dominance (name : String) (pct : ℚ)
deriving DecidableEq

/-- The fields of the contribution verdict the claims refer to. -/
structure ContributionResult where
  passed : Bool
  gini_coefficient : ℚ
  warnings : List ContributionWarning
  equity_label : Option String
  status_emoji : String

/-- Lines 162–191: the pass/fail decision and equity label from the rounded
Gini score, the collected warnings and the team size. -/
def contributionVerdict (gini : ℚ) (warnings : List ContributionWarning)
    (team_size : ℕ) (status_emoji : String) : ContributionResult :=
  if 1/2 < gini ∧ 1 < team_size then
    { passed := false, gini_coefficient := gini, warnings := warnings,
      equity_label := some "Unbalanced", status_emoji := status_emoji }
  else if warnings ≠ [] then
    { passed := true, gini_coefficient := gini, warnings := warnings,
      equity_label := some "Needs Attention", status_emoji := status_emoji }
  else
    { passed := true, gini_coefficient := gini, warnings := warnings,
      equity_label := some "Balanced", status_emoji := status_emoji }

/-- `check_contributions` from the parsed member table onward
(lines 116–191).  `addition_pct` (lines 136–139) is computed for display
only and never read by the warning or verdict logic; it is omitted.
`equity_label` is `none` in the no-history early return (lines 116–125),
which sets no such key.  Python's `max` over a non-empty sequence is a
left fold keeping the first maximum. -/
def check_contributions (min_contribution_pct : ℚ) (members : List MemberStats) :
    ContributionResult :=
  if members = [] then
    { passed := true, gini_coefficient := 0, warnings := [ContributionWarning.noHistory],
      equity_label := none, status_emoji := "⚠️" }
  else
    let total_commits := (members.map fun mem => mem.commits).sum
    let commit_pct : MemberStats → ℚ := fun mem =>
      if 0 < total_commits then pyRound ((mem.commits : ℚ) / (total_commits : ℚ) * 100) 1
      else 0
    let gini := pyRound (_calculate_gini (members.map fun mem => mem.commits)) 3
    let low_warnings := members.filterMap fun mem =>
      if commit_pct mem < min_contribution_pct ∧ 5 < total_commits then
        some (ContributionWarning.lowShare mem.name (commit_pct mem))
      else none
    let max_pct := (members.map commit_pct).foldl (fun acc p => if acc < p then p else acc)
      ((members.map commit_pct).headD 0)
    let dominance_warnings :=
      if 70 < max_pct ∧ 1 < members.length then
        let dominant := members.foldl
          (fun best mem => if best.commits < mem.commits then mem else best)
          (members.headD { name := "", commits := 0, additions := 0 })
        [ContributionWarning.dominance dominant.name (commit_pct dominant)]
      else []
    let warnings := low_warnings ++ dominance_warnings
    let status_emoji := if gini ≤ 1/5 then "✅" else if gini ≤ 2/5 then "⚠️" else "❌"
    contributionVerdict gini warnings members.length status_emoji

/-! ### Claim C8 -/

/-- Three members with commit counts 1, 1, 3: no warning fires (5 commits
total is not above the small-history floor, the 60% maximum share is not
above 70%), and the rounded Gini score is 0.267. -/
def c8Members : List MemberStats :=
  [{ name := "a", commits := 1, additions := 0 },
   { name := "b", commits := 1, additions := 0 },
   { name := "c", commits := 3, additions := 0 }]

attribute [local semireducible] Rat.add Rat.mul Rat.sub Rat.inv in
/-- **C8 (as stated) is false**: on `c8Members` the label is "Balanced"
although the Gini score 0.267 exceeds 0.2 — the 0.2 threshold governs only
the status emoji (line 173), not the label. -/
theorem C8_counterexample :
    (check_contributions 10 c8Members).equity_label = some "Balanced" ∧
    ¬ ((check_contributions 10 c8Members).gini_coefficient ≤ 1/5) := by
  constructor <;> decide

/-- The verdict step keeps the score and warnings it is given. -/
lemma contributionVerdict_fields (gini : ℚ) (warnings : List ContributionWarning)
    (team_size : ℕ) (status_emoji : String) :
    (contributionVerdict gini warnings team_size status_emoji).gini_coefficient = gini ∧
    (contributionVerdict gini warnings team_size status_emoji).warnings = warnings := by
  simp only [contributionVerdict]
  split_ifs <;> exact ⟨rfl, rfl⟩

/-- Label characterisation of the verdict step. -/
lemma contributionVerdict_labels (gini : ℚ) (warnings : List ContributionWarning)
    (team_size : ℕ) (status_emoji : String) :
    ((contributionVerdict gini warnings team_size status_emoji).equity_label =
        some "Balanced" ↔ warnings = [] ∧ ¬ (1/2 < gini ∧ 1 < team_size))
    ∧ (warnings ≠ [] → gini ≤ 1/2 →
        (contributionVerdict gini warnings team_size status_emoji).equity_label =
          some "Needs Attention")
    ∧ ((contributionVerdict gini warnings team_size status_emoji).equity_label =
          some "Unbalanced" ∧
        (contributionVerdict gini warnings team_size status_emoji).passed = false ↔
        1/2 < gini ∧ 1 < team_size) := by
  simp only [contributionVerdict]
  split_ifs with hU hW
  · refine ⟨⟨fun h => absurd h (by simp), fun h => absurd hU h.2⟩, ?_, ?_⟩
    · intro _ hle
      exact absurd hU.1 (not_lt.mpr hle)
    · exact ⟨fun _ => hU, fun _ => ⟨rfl, rfl⟩⟩
  · refine ⟨⟨fun h => absurd h (by simp), ?_⟩, fun _ _ => rfl, ?_⟩
    · rintro ⟨hw, -⟩
      exact absurd hw hW
    · exact ⟨fun h => absurd h.1 (by simp), fun h => absurd h hU⟩
  · rw [not_not] at hW
    refine ⟨⟨fun _ => ⟨hW, hU⟩, fun _ => rfl⟩, fun hw _ => absurd hW hw, ?_⟩
    exact ⟨fun h => absurd h.1 (by simp), fun h => absurd h hU⟩

/-- **C8 (amended).** With at least one contributor: "Balanced" exactly when
no warning fired and not (score > 0.5 with more than one contributor);
"Needs Attention" whenever warnings exist and the score is at most 0.5;
"Unbalanced" with `passed = false` exactly when the score exceeds 0.5 and
there is more than one contributor.  (As frozen, the claim's "Balanced only
when the score is at most 0.2" fails; 0.2 only selects the ✅ emoji.) -/
theorem C8_amended_labels (min_pct : ℚ) (members : List MemberStats)
    (hne : members ≠ []) :
    ((check_contributions min_pct members).equity_label = some "Balanced" ↔
      (check_contributions min_pct members).warnings = [] ∧
      ¬ (1/2 < (check_contributions min_pct members).gini_coefficient ∧
          1 < members.length))
    ∧ ((check_contributions min_pct members).warnings ≠ [] →
        (check_contributions min_pct members).gini_coefficient ≤ 1/2 →
        (check_contributions min_pct members).equity_label = some "Needs Attention")
    ∧ ((check_contributions min_pct members).equity_label = some "Unbalanced" ∧
        (check_contributions min_pct members).passed = false ↔
        1/2 < (check_contributions min_pct members).gini_coefficient ∧
          1 < members.length) := by
  simp only [check_contributions, if_neg hne]
  rw [(contributionVerdict_fields _ _ _ _).1, (contributionVerdict_fields _ _ _ _).2]
  exact contributionVerdict_labels _ _ _ _

/-- Members with commit counts 9 and 1: the dominance warning fires and the
rounded Gini score is 0.4 ≤ 0.5. -/
def c8MembersDominant : List MemberStats :=
  [{ name := "a", commits := 9, additions := 0 },
   { name := "b", commits := 1, additions := 0 }]

attribute [local semireducible] Rat.add Rat.mul Rat.sub Rat.inv in
/-- Witness for C8 (amended): warnings with score 0.4 give
"Needs Attention". -/
theorem C8_amended_labels_witness :
    (check_contributions 10 c8MembersDominant).equity_label = some "Needs Attention" :=
  (C8_amended_labels 10 c8MembersDominant (by decide)).2.1 (by decide) (by decide)

end PBLGuardian
